import Mathlib

set_option maxHeartbeats 1000000

/-!
Verification of src/defcon.c from the repository undnull/defcon, a
build-time configuration code generator.  The C program keeps a singly
linked list of key definitions (struct defcon_def, global head
def_begin), fills the list from one or more ini style definition files,
resolves concrete values from a configuration file, enforces required
keys and renders a C header and a makefile fragment.

Embedding conventions:
* the linked list starting at def_begin is modelled as a Lean list whose
  head corresponds to def_begin;
* C strings are modelled as Lean strings; the fixed 64/128/256 byte
  buffers and the snprintf/strncpy truncation are elided (no claim
  touches truncation);
* intmax_t is modelled as Int and uintmax_t as Nat; the targeted
  platforms have 64 bit intmax_t, and sscanf conversions whose result is
  out of range are undefined behavior in C, so unsigned results are
  reduced modulo 2 ^ 64 while signed results are kept exact;
* the vendored ini reader (inih/ini.h, not part of this repository) is
  treated as a black box that delivers (section, key, value) triples to
  the callback and reports success, an open failure or a structural
  parse failure, as the specification directs;
* warnings are modelled as a Bool per callback invocation (or a count
  per phase); fatal errors (the die function prints a fatal diagnostic
  and calls exit(1), hence a nonzero process exit) are modelled by
  dedicated outcome constructors.
-/

/-! ### Value type tags (the VALUE_TYPE macros) -/

def VALUE_TYPE_STRING : Nat := 0

def VALUE_TYPE_INTEGER : Nat := 1

def VALUE_TYPE_HEX_INTEGER : Nat := 2

def VALUE_TYPE_UNSIGNED_INTEGER : Nat := 3

def VALUE_TYPE_BOOLEAN : Nat := 4

/-! ### Character level models of the libc text scanning used by the code -/

/-- Character class of the C isspace function in the C locale: space,
horizontal tab, line feed, vertical tab, form feed, carriage return. -/
def isSpaceChar (c : Char) : Bool :=
  decide (c.toNat = 32 ∨ c.toNat = 9 ∨ c.toNat = 10 ∨ c.toNat = 11 ∨
    c.toNat = 12 ∨ c.toNat = 13)

/-- Decimal digit test, characters 0 through 9. -/
def isDecDigit (c : Char) : Bool :=
  decide (48 ≤ c.toNat ∧ c.toNat ≤ 57)

/-- Hexadecimal digit test, characters 0-9, a-f and A-F. -/
def isHexDigitC (c : Char) : Bool :=
  decide ((48 ≤ c.toNat ∧ c.toNat ≤ 57) ∨ (97 ≤ c.toNat ∧ c.toNat ≤ 102) ∨
    (65 ≤ c.toNat ∧ c.toNat ≤ 70))

/-- Numeric value of a decimal digit character. -/
def decVal (c : Char) : Nat := c.toNat - 48

/-- Numeric value of a hexadecimal digit character (either case). -/
def hexVal (c : Char) : Nat :=
  if c.toNat ≤ 57 then c.toNat - 48
  else if 97 ≤ c.toNat then c.toNat - 87
  else c.toNat - 55

/-- Drop leading whitespace, as the sscanf numeric conversions and atoi
do before looking at the digits. -/
def skipSpaces : List Char → List Char
  | [] => []
  | c :: cs => if isSpaceChar c then skipSpaces cs else c :: cs

/-- Consume one optional sign character; the Bool component records
whether the consumed sign was a minus. -/
def splitSign : List Char → Bool × List Char
  | [] => (false, [])
  | c :: cs =>
      if c = '-' then (true, cs)
      else if c = '+' then (false, cs)
      else (false, c :: cs)

/-- Longest prefix of decimal digits, together with the remaining text. -/
def takeDecDigits : List Char → List Char × List Char
  | [] => ([], [])
  | c :: cs =>
      if isDecDigit c then (c :: (takeDecDigits cs).1, (takeDecDigits cs).2)
      else ([], c :: cs)

/-- Longest prefix of hexadecimal digits, together with the remaining text. -/
def takeHexDigits : List Char → List Char × List Char
  | [] => ([], [])
  | c :: cs =>
      if isHexDigitC c then (c :: (takeHexDigits cs).1, (takeHexDigits cs).2)
      else ([], c :: cs)

/-- Value of a decimal digit string, most significant digit first. -/
def listDecVal (ds : List Char) : Nat :=
  ds.foldl (fun a c => 10 * a + decVal c) 0

/-- Value of a hexadecimal digit string, most significant digit first. -/
def listHexVal (ds : List Char) : Nat :=
  ds.foldl (fun a c => 16 * a + hexVal c) 0

/-- Digit expansion of a natural number, most significant digit first, in
base b with the digit rendering dig.  The fuel argument bounds the
recursion; any fuel strictly larger than the number is sufficient. -/
def digitsAux (b : Nat) (dig : Nat → Char) : Nat → Nat → List Char → List Char
  | 0, _, acc => acc
  | fuel + 1, n, acc =>
      if n < b then dig n :: acc
      else digitsAux b dig fuel (n / b) (dig (n % b) :: acc)

/-- Decimal digit characters, as printf renders them. -/
def decDigitChar : Nat → Char
  | 0 => '0'
  | 1 => '1'
  | 2 => '2'
  | 3 => '3'
  | 4 => '4'
  | 5 => '5'
  | 6 => '6'
  | 7 => '7'
  | 8 => '8'
  | _ => '9'

/-- Uppercase hexadecimal digit characters, as the printf X conversion
renders them. -/
def hexDigitCharU : Nat → Char
  | 0 => '0'
  | 1 => '1'
  | 2 => '2'
  | 3 => '3'
  | 4 => '4'
  | 5 => '5'
  | 6 => '6'
  | 7 => '7'
  | 8 => '8'
  | 9 => '9'
  | 10 => 'A'
  | 11 => 'B'
  | 12 => 'C'
  | 13 => 'D'
  | 14 => 'E'
  | _ => 'F'

/-- Decimal digit string of a natural number. -/
def decDigits (n : Nat) : List Char := digitsAux 10 decDigitChar (n + 1) n []

/-- Uppercase hexadecimal digit string of a natural number. -/
def hexDigits (n : Nat) : List Char := digitsAux 16 hexDigitCharU (n + 1) n []

/-- Rendering of printf with the u conversion (decimal, unsigned). -/
def natDecString (n : Nat) : String := String.mk (decDigits n)

/-- Rendering of printf with the d conversion (decimal, signed). -/
def intDecString (n : Int) : String :=
  if n < 0 then String.mk ('-' :: decDigits n.natAbs)
  else String.mk (decDigits n.toNat)

/-- Rendering of the 0x%jX format used for hex values: a lowercase 0x
prefix followed by uppercase hexadecimal digits. -/
def hexStringU (n : Nat) : String := String.mk ('0' :: 'x' :: hexDigits n)

/-- One more than the largest value of the 64 bit uintmax_t of the
platforms the program targets. -/
def UINTMAX_MOD : Nat := 2 ^ 64

/-- Model of sscanf(s, "%jd", &x) == 1: skip whitespace, one optional
sign, then the longest run of decimal digits; the conversion fails when
no digit is present and ignores any trailing text.  An out of range
result is undefined behavior in C and is modelled exactly. -/
def scanf_jd (s : String) : Option Int :=
  let sg := splitSign (skipSpaces s.data)
  let dg := takeDecDigits sg.2
  if dg.1.isEmpty then none
  else if sg.1 then some (-(listDecVal dg.1 : Int))
  else some ((listDecVal dg.1 : Int))

/-- Model of sscanf(s, "%ju", &x) == 1: same subject sequence as the
strtoumax function with base 10, so a leading minus sign is accepted and
negates the value in unsigned (modular) arithmetic; the conversion fails
only when no digit is present, and trailing text is ignored. -/
def scanf_ju (s : String) : Option Nat :=
  let sg := splitSign (skipSpaces s.data)
  let dg := takeDecDigits sg.2
  if dg.1.isEmpty then none
  else if sg.1 then some ((UINTMAX_MOD - listDecVal dg.1 % UINTMAX_MOD) % UINTMAX_MOD)
  else some (listDecVal dg.1 % UINTMAX_MOD)

/-- The optional second 0x prefix that the strtoumax base 16 subject
sequence may contain; it is consumed only when a hexadecimal digit
follows it. -/
def strip0x (l : List Char) : List Char :=
  match l with
  | a :: b :: c :: cs =>
      if a = '0' ∧ (b = 'x' ∨ b = 'X') ∧ isHexDigitC c = true then c :: cs
      else a :: b :: c :: cs
  | l => l

/-- Model of sscanf(s, "0x%jx", &x) == 1: the two literal characters 0
and x must match the input exactly (no whitespace skipping before a
literal), then the jx conversion skips whitespace, accepts an optional
sign and an optional second 0x prefix, and reads the longest run of
hexadecimal digits; it fails when no digit is present, trailing text is
ignored, and a negated or out of range value wraps modulo 2 ^ 64. -/
def scanf_0x_jx (s : String) : Option Nat :=
  match s.data with
  | a :: b :: rest =>
      if a = '0' ∧ b = 'x' then
        let sg := splitSign (skipSpaces rest)
        let dg := takeHexDigits (strip0x sg.2)
        if dg.1.isEmpty then none
        else if sg.1 then some ((UINTMAX_MOD - listHexVal dg.1 % UINTMAX_MOD) % UINTMAX_MOD)
        else some (listHexVal dg.1 % UINTMAX_MOD)
      else none
  | _ => none

/-- Model of the C atoi: leading whitespace, one optional sign, then the
value of the longest run of decimal digits; zero when no digit is
present.  An out of range result is undefined behavior in C and is
modelled exactly. -/
def atoi (s : String) : Int :=
  let sg := splitSign (skipSpaces s.data)
  let dg := takeDecDigits sg.2
  if sg.1 then -(listDecVal dg.1 : Int) else (listDecVal dg.1 : Int)

/-! ### The value model (struct defcon_value, parse_boolean, parse_type,
parse_value, value_to_string) -/

/-- struct defcon_value.  The C union is modelled with one field per
member; a conversion that fails writes nothing, and a conversion that
succeeds writes only the member selected by the type tag, so the other
fields simply carry their previous content. -/
structure defcon_value where
  type : Nat
  string : String
  integer : Int
  unsigned_integer : Nat
  boolean : Bool

/-- parse_boolean: atoi(s) || !strcmp(s, "true"). -/
def parse_boolean (s : String) : Bool :=
  atoi s != 0 || s == "true"

/-- parse_type: the fixed vocabulary of type names; anything else maps
to VALUE_TYPE_STRING. -/
def parse_type (s : String) : Nat :=
  if s = "string" then VALUE_TYPE_STRING
  else if s = "integer" then VALUE_TYPE_INTEGER
  else if s = "hex_integer" then VALUE_TYPE_HEX_INTEGER
  else if s = "unsigned_integer" then VALUE_TYPE_UNSIGNED_INTEGER
  else if s = "boolean" then VALUE_TYPE_BOOLEAN
  else VALUE_TYPE_STRING

/-- parse_value: coerce the text against the type tag already stored in
the value.  The pair returns the updated value and the success flag the
C function stores through its success pointer.  The default branch of
the C switch copies the text into the string member unconditionally and
reports success exactly when the tag is VALUE_TYPE_STRING. -/
def parse_value (s : String) (v : defcon_value) : defcon_value × Bool :=
  if v.type = VALUE_TYPE_INTEGER then
    match scanf_jd s with
    | some n => ({ v with integer := n }, true)
    | none => (v, false)
  else if v.type = VALUE_TYPE_HEX_INTEGER then
    match scanf_0x_jx s with
    | some n => ({ v with unsigned_integer := n }, true)
    | none => (v, false)
  else if v.type = VALUE_TYPE_UNSIGNED_INTEGER then
    match scanf_ju s with
    | some n => ({ v with unsigned_integer := n }, true)
    | none => (v, false)
  else if v.type = VALUE_TYPE_BOOLEAN then
    ({ v with boolean := parse_boolean s }, true)
  else
    ({ v with string := s }, decide (v.type = VALUE_TYPE_STRING))

/-- value_to_string: the rendering used by both generators.  Strings are
wrapped in double quotes, integers print signed decimal, hex integers
print 0x followed by uppercase hex digits, unsigned integers print
decimal, booleans print 1 or 0; the (unreachable) default branch copies
the string member verbatim. -/
def value_to_string (v : defcon_value) : String :=
  if v.type = VALUE_TYPE_STRING then "\"" ++ v.string ++ "\""
  else if v.type = VALUE_TYPE_INTEGER then intDecString v.integer
  else if v.type = VALUE_TYPE_HEX_INTEGER then hexStringU v.unsigned_integer
  else if v.type = VALUE_TYPE_UNSIGNED_INTEGER then natDecString v.unsigned_integer
  else if v.type = VALUE_TYPE_BOOLEAN then (if v.boolean then "1" else "0")
  else v.string

/-! ### The definition registry (struct defcon_def and the global list
headed by def_begin) -/

/-- struct defcon_def without the next pointer; the registry list below
carries the linking. -/
structure defcon_def where
  name : String
  description : String
  define : String
  has_value : Bool
  value_required : Bool
  value : defcon_value

/-- The fresh definition get_def allocates: memset to zero (empty
strings, false flags, zero members), the name copied in, and the value
type set to VALUE_TYPE_STRING. -/
def new_def (name : String) : defcon_def :=
  { name := name
    description := ""
    define := ""
    has_value := false
    value_required := false
    value :=
      { type := VALUE_TYPE_STRING
        string := ""
        integer := 0
        unsigned_integer := 0
        boolean := false } }

/-- find_def: linear scan from def_begin, no creation. -/
def find_def (name : String) : List defcon_def → Option defcon_def
  | [] => none
  | d :: ds => if d.name = name then some d else find_def name ds

/-- get_def: the scan of find_def, then allocation of a fresh node when
the scan fails.  The first component is the definition the C function
returns a pointer to and the second is the registry after the call.  On
the allocation path the C code runs the two statements
def->next = def_begin and then def_begin = def->next; the second one
stores the old head back into def_begin, so the head never changes and
the fresh node is never linked into the list: the registry is returned
unchanged and the fresh node is an orphan. -/
def get_def (name : String) (reg : List defcon_def) : defcon_def × List defcon_def :=
  match find_def name reg with
  | some d => (d, reg)
  | none => (new_def name, reg)

/-- One key = value line inside a definition file section, applied to
the definition record that the section name resolved to.  Returns the
updated record, whether the call printed a warning, and the C callback
return value (true models 1).  The type branch warns exactly when
parse_type returned 0, the value the VALUE_TYPE_STRING tag also uses;
the value branch stores the parse result and its success flag into
has_value; an unknown key warns and returns 0. -/
def apply_def_key (key value : String) (d : defcon_def) : defcon_def × Bool × Bool :=
  if key = "description" then ({ d with description := value }, false, true)
  else if key = "define" then ({ d with define := value }, false, true)
  else if key = "type" then
    ({ d with value := { d.value with type := parse_type value } },
      decide (parse_type value = 0), true)
  else if key = "value" then
    ({ d with value := (parse_value value d.value).1
              has_value := (parse_value value d.value).2 }, false, true)
  else if key = "required" then
    ({ d with value_required := parse_boolean value }, false, true)
  else (d, true, false)

/-- ini_callback_def: the definition file callback.  It calls get_def on
the section name and applies the key to the record through the returned
pointer.  The recursion below performs the same scan as get_def; when
the scan reaches the empty list, get_def has allocated a fresh node
without linking it (see get_def), so the key update lands on the orphan
record and the registry itself is returned unchanged, while the warning
and the return value of the callback are still those of the update.
The data argument of the C callback only feeds the warning text and is
elided. -/
def ini_callback_def (sec key value : String) :
    List defcon_def → List defcon_def × Bool × Bool
  | [] => ([], (apply_def_key key value (new_def sec)).2)
  | d :: ds =>
      if d.name = sec then
        ((apply_def_key key value d).1 :: ds, (apply_def_key key value d).2)
      else
        ((d :: (ini_callback_def sec key value ds).1),
          (ini_callback_def sec key value ds).2)

/-- init_callback_conf: the configuration file callback.  An unknown key
warns (unless suppression is on) and returns 0 without touching the
registry.  A known key runs parse_value against the stored value with
the success pointer aimed at has_value, so has_value receives the
success flag of this parse; when that flag is false the callback warns
and returns 0.  The data argument (the file name in the warning text)
and the unused section argument are elided. -/
def init_callback_conf (suppress : Bool) (key value : String) :
    List defcon_def → List defcon_def × Bool × Bool
  | [] => ([], !suppress, false)
  | d :: ds =>
      if d.name = key then
        (({ d with value := (parse_value value d.value).1
                   has_value := (parse_value value d.value).2 } :: ds),
          !(parse_value value d.value).2, (parse_value value d.value).2)
      else
        ((d :: (init_callback_conf suppress key value ds).1),
          (init_callback_conf suppress key value ds).2)

/-! ### The two generators (generate_c_header, generate_makefile) -/

/-- The line generate_c_header emits for one definition: none when the
define field is empty (the C code then prints a warning and skips the
entry). -/
def header_line (d : defcon_def) : Option String :=
  if d.define = "" then none
  else some ("#define CONFIG_" ++ d.define ++ " " ++ value_to_string d.value)

/-- The lines generate_c_header writes: include guard preamble, one
define line per renderable definition in registry order, then the guard
end.  Opening the output file is elided; on an open failure the C
function only warns and returns false without touching the registry. -/
def generate_c_header_lines (reg : List defcon_def) : List String :=
  "#ifndef __CONFIG_H__" :: "#define __CONFIG_H__ 1" ::
    (reg.filterMap header_line ++ ["#endif"])

/-- The line generate_makefile emits for one definition. -/
def makefile_line (d : defcon_def) : Option String :=
  if d.define = "" then none
  else some ("CONFIG_" ++ d.define ++ " := " ++ value_to_string d.value)

/-- The lines generate_makefile writes, in registry order. -/
def generate_makefile_lines (reg : List defcon_def) : List String :=
  reg.filterMap makefile_line

/-! ### The main driver (validation loop and phase structure of main) -/

/-- The required key check of main: walk the registry from def_begin and
return the first definition with value_required set and has_value clear;
main calls die on it, so the walk short-circuits there.  The skip
condition is literally the C one: continue when has_value or not
value_required. -/
def first_unresolved_required : List defcon_def → Option defcon_def
  | [] => none
  | d :: ds =>
      if d.has_value || !d.value_required then first_unresolved_required ds
      else some d

/-- Outcome of the part of main that runs after configuration
resolution: either die on a required key without a value (a fatal
diagnostic naming the key and exit code 1, before any generator runs),
or survival to the rendering phase with the lines the two generators
produce from the final registry. -/
inductive MainOutcome where
  | fatalRequired (name : String)
  | rendered (headerLines makefileLines : List String)

/-- The post-resolution part of main (the required loop, then the second
getopt loop that runs the generators). -/
def run_after_conf (reg : List defcon_def) : MainOutcome :=
  match first_unresolved_required reg with
  | some d => MainOutcome.fatalRequired d.name
  | none =>
      MainOutcome.rendered (generate_c_header_lines reg) (generate_makefile_lines reg)

/-- Modelled from the spec: the sectioned key = value reader (the
vendored inih/ini.h, which is not part of this repository) is a black
box that either cannot open the file, or delivers a list of
(section, key, value) triples to the callback; a structural parse
failure is reported after the triples read before the failure were
already delivered. -/
inductive IniResult where
  | ok (triples : List (String × String × String))
  | openError
  | parseError (processed : List (String × String × String))

/-- Whether the black box reported a failure for this file. -/
def IniResult.failed : IniResult → Bool
  | IniResult.ok _ => false
  | _ => true

/-- Deliver a list of definition file triples to ini_callback_def,
counting warnings. -/
def run_def_triples : List (String × String × String) → List defcon_def →
    List defcon_def × Nat
  | [], reg => (reg, 0)
  | t :: ts, reg =>
      ((run_def_triples ts (ini_callback_def t.1 t.2.1 t.2.2 reg).1).1,
        (if (ini_callback_def t.1 t.2.1 t.2.2 reg).2.1 then 1 else 0) +
          (run_def_triples ts (ini_callback_def t.1 t.2.1 t.2.2 reg).1).2)

/-- The definition file loop of main: an unopenable file warns and is
skipped, a file whose parse fails warns after its delivered triples took
effect, and in every case processing continues with the remaining
files.  Returns the registry and the warning count. -/
def ingest_def_files : List IniResult → List defcon_def → List defcon_def × Nat
  | [], reg => (reg, 0)
  | f :: fs, reg =>
      let step : List defcon_def × Nat :=
        match f with
        | IniResult.ok ts => run_def_triples ts reg
        | IniResult.openError => (reg, 1)
        | IniResult.parseError ts =>
            ((run_def_triples ts reg).1, (run_def_triples ts reg).2 + 1)
      ((ingest_def_files fs step.1).1, step.2 + (ingest_def_files fs step.1).2)

/-- Deliver a list of configuration file triples to init_callback_conf,
counting warnings.  The section component of each triple is unused by
the callback. -/
def run_conf_triples (suppress : Bool) : List (String × String × String) →
    List defcon_def → List defcon_def × Nat
  | [], reg => (reg, 0)
  | t :: ts, reg =>
      ((run_conf_triples suppress ts (init_callback_conf suppress t.2.1 t.2.2 reg).1).1,
        (if (init_callback_conf suppress t.2.1 t.2.2 reg).2.1 then 1 else 0) +
          (run_conf_triples suppress ts (init_callback_conf suppress t.2.1 t.2.2 reg).1).2)

/-- Outcome of the configuration phase of main: die (fatal diagnostic,
exit code 1) when the file cannot be opened or its parse fails, else the
updated registry and warning count. -/
inductive ConfOutcome where
  | fatal (msg : String)
  | done (reg : List defcon_def) (warnings : Nat)

/-- The configuration file step of main: fopen failure dies with the
strerror text, a reported parse failure dies with "parse error" (the
triples delivered before the failure had already mutated the registry,
but the process exits), success hands the registry on. -/
def resolve_conf (suppress : Bool) (file : IniResult) (reg : List defcon_def) :
    ConfOutcome :=
  match file with
  | IniResult.openError => ConfOutcome.fatal "open failure"
  | IniResult.parseError _ => ConfOutcome.fatal "parse error"
  | IniResult.ok ts =>
      ConfOutcome.done (run_conf_triples suppress ts reg).1
        (run_conf_triples suppress ts reg).2

/-- Whole run outcome for the phase structure of main after option
handling. -/
inductive RunOutcome where
  | fatal (msg : String)
  | finished (headerLines makefileLines : List String) (warnings : Nat)

/-- The phase structure of main: at least one definition file is
required (else die), then definition ingestion (never fatal), then the
configuration file (fatal on open or parse failure), then the required
key validation (fatal on the first violator, before any rendering),
then the generators. -/
def defcon_main (defFiles : List IniResult) (confFile : IniResult)
    (suppress : Bool) : RunOutcome :=
  if defFiles.isEmpty then RunOutcome.fatal "no definition files"
  else
    match resolve_conf suppress confFile (ingest_def_files defFiles []).1 with
    | ConfOutcome.fatal msg => RunOutcome.fatal msg
    | ConfOutcome.done reg w2 =>
        match first_unresolved_required reg with
        | some d => RunOutcome.fatal ("key " ++ d.name ++ " requires a value!")
        | none =>
            RunOutcome.finished (generate_c_header_lines reg)
              (generate_makefile_lines reg) ((ingest_def_files defFiles []).2 + w2)

/-! ### Helper lemmas about the digit machinery -/

theorem string_mk_data (l : List Char) : (String.mk l).data = l := rfl

theorem digitsAux_append (b : Nat) (dig : Nat → Char) :
    ∀ fuel n acc, digitsAux b dig fuel n acc = digitsAux b dig fuel n [] ++ acc := by
  intro fuel
  induction fuel with
  | zero => intro n acc; simp [digitsAux]
  | succ fuel ih =>
      intro n acc
      by_cases h : n < b
      · simp [digitsAux, h]
      · simp only [digitsAux, if_neg h]
        rw [ih (n / b) (dig (n % b) :: acc), ih (n / b) [dig (n % b)]]
        simp

theorem digitsAux_val (b : Nat) (dig : Nat → Char) (dval : Char → Nat)
    (hb : 2 ≤ b) (hd : ∀ m, m < b → dval (dig m) = m) :
    ∀ fuel n, n < fuel →
      (digitsAux b dig fuel n []).foldl (fun a c => b * a + dval c) 0 = n := by
  intro fuel
  induction fuel with
  | zero => intro n hn; exact absurd hn (Nat.not_lt_zero n)
  | succ fuel ih =>
      intro n hn
      by_cases h : n < b
      · simp [digitsAux, h, hd n h]
      · have hb0 : 0 < b := by omega
        have hdiv : n / b < fuel := by
          have h1 : n / b < n := Nat.div_lt_self (by omega) (by omega)
          omega
        simp only [digitsAux, if_neg h]
        rw [digitsAux_append]
        rw [List.foldl_append]
        rw [ih (n / b) hdiv]
        simp only [List.foldl]
        rw [hd (n % b) (Nat.mod_lt n hb0)]
        exact Nat.div_add_mod n b

theorem digitsAux_mem (b : Nat) (dig : Nat → Char) (hb : 0 < b) :
    ∀ fuel n acc c, c ∈ digitsAux b dig fuel n acc →
      (∃ m, m < b ∧ c = dig m) ∨ c ∈ acc := by
  intro fuel
  induction fuel with
  | zero => intro n acc c hc; simp only [digitsAux] at hc; exact Or.inr hc
  | succ fuel ih =>
      intro n acc c hc
      by_cases h : n < b
      · simp only [digitsAux, if_pos h, List.mem_cons] at hc
        rcases hc with rfl | hc
        · exact Or.inl ⟨n, h, rfl⟩
        · exact Or.inr hc
      · simp only [digitsAux, if_neg h] at hc
        rcases ih (n / b) (dig (n % b) :: acc) c hc with h1 | h2
        · exact Or.inl h1
        · rcases List.mem_cons.mp h2 with rfl | h3
          · exact Or.inl ⟨n % b, Nat.mod_lt n hb, rfl⟩
          · exact Or.inr h3

theorem digitsAux_ne_nil (b : Nat) (dig : Nat → Char) (fuel n : Nat)
    (acc : List Char) (hf : 0 < fuel) : digitsAux b dig fuel n acc ≠ [] := by
  match fuel, hf with
  | fuel + 1, _ =>
      by_cases h : n < b
      · simp [digitsAux, h]
      · simp only [digitsAux, if_neg h]
        rw [digitsAux_append]
        simp

theorem decDigitChar_lt (m : Nat) (hm : m < 10) :
    decVal (decDigitChar m) = m ∧ isDecDigit (decDigitChar m) = true := by
  interval_cases m <;> exact ⟨by decide, by decide⟩

theorem hexDigitCharU_lt (m : Nat) (hm : m < 16) :
    hexVal (hexDigitCharU m) = m ∧ isHexDigitC (hexDigitCharU m) = true ∧
      hexDigitCharU m ≠ 'x' ∧ hexDigitCharU m ≠ 'X' := by
  interval_cases m <;> exact ⟨by decide, by decide, by decide, by decide⟩

theorem decDigit_char_facts (c : Char) (h : isDecDigit c = true) :
    isSpaceChar c = false ∧ c ≠ '-' ∧ c ≠ '+' := by
  have h1 : 48 ≤ c.toNat ∧ c.toNat ≤ 57 := of_decide_eq_true h
  refine ⟨?_, ?_, ?_⟩
  · apply decide_eq_false
    intro hq
    rcases hq with h2 | h2 | h2 | h2 | h2 | h2 <;> omega
  · intro he
    rw [he] at h1
    exact absurd h1.1 (by decide)
  · intro he
    rw [he] at h1
    exact absurd h1.1 (by decide)

theorem hexDigit_char_facts (c : Char) (h : isHexDigitC c = true) :
    isSpaceChar c = false ∧ c ≠ '-' ∧ c ≠ '+' := by
  have h1 : (48 ≤ c.toNat ∧ c.toNat ≤ 57) ∨ (97 ≤ c.toNat ∧ c.toNat ≤ 102) ∨
      (65 ≤ c.toNat ∧ c.toNat ≤ 70) := of_decide_eq_true h
  refine ⟨?_, ?_, ?_⟩
  · apply decide_eq_false
    intro hq
    rcases hq with h2 | h2 | h2 | h2 | h2 | h2 <;> omega
  · intro he
    rw [he] at h1
    revert h1
    decide
  · intro he
    rw [he] at h1
    revert h1
    decide

theorem decDigits_spec (n : Nat) :
    listDecVal (decDigits n) = n ∧ (∀ c ∈ decDigits n, isDecDigit c = true) ∧
      decDigits n ≠ [] := by
  refine ⟨?_, ?_, ?_⟩
  · exact digitsAux_val 10 decDigitChar decVal (by norm_num)
      (fun m hm => (decDigitChar_lt m hm).1) (n + 1) n (Nat.lt_succ_self n)
  · intro c hc
    rcases digitsAux_mem 10 decDigitChar (by norm_num) (n + 1) n [] c hc with
      ⟨m, hm, rfl⟩ | h
    · exact (decDigitChar_lt m hm).2
    · exact absurd h (List.not_mem_nil c)
  · exact digitsAux_ne_nil 10 decDigitChar (n + 1) n [] (Nat.succ_pos n)

theorem hexDigits_spec (n : Nat) :
    listHexVal (hexDigits n) = n ∧
      (∀ c ∈ hexDigits n, isHexDigitC c = true ∧ c ≠ 'x' ∧ c ≠ 'X') ∧
      hexDigits n ≠ [] := by
  refine ⟨?_, ?_, ?_⟩
  · exact digitsAux_val 16 hexDigitCharU hexVal (by norm_num)
      (fun m hm => (hexDigitCharU_lt m hm).1) (n + 1) n (Nat.lt_succ_self n)
  · intro c hc
    rcases digitsAux_mem 16 hexDigitCharU (by norm_num) (n + 1) n [] c hc with
      ⟨m, hm, rfl⟩ | h
    · exact ⟨(hexDigitCharU_lt m hm).2.1, (hexDigitCharU_lt m hm).2.2.1,
        (hexDigitCharU_lt m hm).2.2.2⟩
    · exact absurd h (List.not_mem_nil c)
  · exact digitsAux_ne_nil 16 hexDigitCharU (n + 1) n [] (Nat.succ_pos n)

theorem skipSpaces_cons (c : Char) (cs : List Char) (h : isSpaceChar c = false) :
    skipSpaces (c :: cs) = c :: cs := by
  simp [skipSpaces, h]

theorem splitSign_cons (c : Char) (cs : List Char) (h1 : c ≠ '-') (h2 : c ≠ '+') :
    splitSign (c :: cs) = (false, c :: cs) := by
  simp [splitSign, h1, h2]

theorem takeDecDigits_all (l : List Char) (h : ∀ c ∈ l, isDecDigit c = true) :
    takeDecDigits l = (l, []) := by
  induction l with
  | nil => rfl
  | cons c cs ih =>
      have hc := h c (List.mem_cons_self c cs)
      have ih2 := ih (fun x hx => h x (List.mem_cons_of_mem c hx))
      simp [takeDecDigits, hc, ih2]

theorem takeHexDigits_all (l : List Char) (h : ∀ c ∈ l, isHexDigitC c = true) :
    takeHexDigits l = (l, []) := by
  induction l with
  | nil => rfl
  | cons c cs ih =>
      have hc := h c (List.mem_cons_self c cs)
      have ih2 := ih (fun x hx => h x (List.mem_cons_of_mem c hx))
      simp [takeHexDigits, hc, ih2]

theorem decDigits_skipSpaces (n : Nat) : skipSpaces (decDigits n) = decDigits n := by
  obtain ⟨hval, hall, hne⟩ := decDigits_spec n
  obtain ⟨c, cs, hcons⟩ := List.exists_cons_of_ne_nil hne
  have hc : isDecDigit c = true := hall c (by rw [hcons]; exact List.mem_cons_self c cs)
  rw [hcons]
  exact skipSpaces_cons c cs (decDigit_char_facts c hc).1

theorem decDigits_splitSign (n : Nat) :
    splitSign (decDigits n) = (false, decDigits n) := by
  obtain ⟨hval, hall, hne⟩ := decDigits_spec n
  obtain ⟨c, cs, hcons⟩ := List.exists_cons_of_ne_nil hne
  have hc : isDecDigit c = true := hall c (by rw [hcons]; exact List.mem_cons_self c cs)
  rw [hcons]
  exact splitSign_cons c cs (decDigit_char_facts c hc).2.1 (decDigit_char_facts c hc).2.2

theorem hexDigits_skipSpaces (n : Nat) : skipSpaces (hexDigits n) = hexDigits n := by
  obtain ⟨hval, hall, hne⟩ := hexDigits_spec n
  obtain ⟨c, cs, hcons⟩ := List.exists_cons_of_ne_nil hne
  have hc := hall c (by rw [hcons]; exact List.mem_cons_self c cs)
  rw [hcons]
  exact skipSpaces_cons c cs (hexDigit_char_facts c hc.1).1

theorem hexDigits_splitSign (n : Nat) :
    splitSign (hexDigits n) = (false, hexDigits n) := by
  obtain ⟨hval, hall, hne⟩ := hexDigits_spec n
  obtain ⟨c, cs, hcons⟩ := List.exists_cons_of_ne_nil hne
  have hc := hall c (by rw [hcons]; exact List.mem_cons_self c cs)
  rw [hcons]
  exact splitSign_cons c cs (hexDigit_char_facts c hc.1).2.1
    (hexDigit_char_facts c hc.1).2.2

theorem strip0x_hexDigits (n : Nat) : strip0x (hexDigits n) = hexDigits n := by
  obtain ⟨hval, hall, hne⟩ := hexDigits_spec n
  cases h : hexDigits n with
  | nil => rfl
  | cons a t =>
      cases t with
      | nil => rfl
      | cons b t2 =>
          cases t2 with
          | nil => rfl
          | cons c cs =>
              have hb : b ∈ hexDigits n := by
                rw [h]; exact List.mem_cons_of_mem a (List.mem_cons_self b (c :: cs))
              have hbx := (hall b hb).2.1
              have hbX := (hall b hb).2.2
              simp [strip0x, hbx, hbX]

theorem scanf_jd_format (n : Int) : scanf_jd (intDecString n) = some n := by
  rcases lt_or_le n 0 with hneg | hpos
  · obtain ⟨hval, hall, hne⟩ := decDigits_spec n.natAbs
    rw [intDecString, if_pos hneg]
    simp only [scanf_jd, string_mk_data]
    rw [skipSpaces_cons '-' (decDigits n.natAbs) (by decide)]
    rw [show splitSign ('-' :: decDigits n.natAbs) = (true, decDigits n.natAbs) by
      simp [splitSign]]
    rw [takeDecDigits_all (decDigits n.natAbs) hall]
    simp only [List.isEmpty_eq_true]
    rw [if_neg hne, if_pos trivial, hval]
    have : ((n.natAbs : Nat) : Int) = -n := Int.ofNat_natAbs_of_nonpos (le_of_lt hneg)
    rw [this]
    simp
  · have hn : ¬ n < 0 := not_lt.mpr hpos
    obtain ⟨hval, hall, hne⟩ := decDigits_spec n.toNat
    rw [intDecString, if_neg hn]
    simp only [scanf_jd, string_mk_data]
    rw [decDigits_skipSpaces, decDigits_splitSign]
    rw [takeDecDigits_all (decDigits n.toNat) hall]
    simp only [List.isEmpty_eq_true]
    rw [if_neg hne, if_neg (by simp), hval]
    rw [Int.toNat_of_nonneg hpos]

theorem scanf_ju_format (n : Nat) (h : n < UINTMAX_MOD) :
    scanf_ju (natDecString n) = some n := by
  obtain ⟨hval, hall, hne⟩ := decDigits_spec n
  simp only [natDecString, scanf_ju, string_mk_data]
  rw [decDigits_skipSpaces, decDigits_splitSign]
  rw [takeDecDigits_all (decDigits n) hall]
  simp only [List.isEmpty_eq_true]
  rw [if_neg hne, if_neg (by simp), hval, Nat.mod_eq_of_lt h]

theorem scanf_0x_jx_format (n : Nat) (h : n < UINTMAX_MOD) :
    scanf_0x_jx (hexStringU n) = some n := by
  obtain ⟨hval, hall, hne⟩ := hexDigits_spec n
  simp only [hexStringU, scanf_0x_jx, string_mk_data]
  rw [if_pos ⟨trivial, trivial⟩]
  rw [hexDigits_skipSpaces, hexDigits_splitSign]
  simp only []
  rw [strip0x_hexDigits]
  rw [takeHexDigits_all (hexDigits n) (fun c hc => (hall c hc).1)]
  simp only [List.isEmpty_eq_true]
  rw [if_neg hne, if_neg (by simp), hval, Nat.mod_eq_of_lt h]

/-! ### Helper lemmas about the registry model -/

theorem run_def_triples_nil (ts : List (String × String × String)) :
    (run_def_triples ts []).1 = [] := by
  induction ts with
  | nil => rfl
  | cons t ts ih =>
      have h1 : (ini_callback_def t.1 t.2.1 t.2.2 []).1 = [] := rfl
      simp only [run_def_triples, h1]
      exact ih

theorem ingest_def_files_nil (files : List IniResult) :
    (ingest_def_files files []).1 = [] := by
  induction files with
  | nil => rfl
  | cons f fs ih =>
      cases f with
      | ok ts => simp only [ingest_def_files, run_def_triples_nil]; exact ih
      | openError => simp only [ingest_def_files]; exact ih
      | parseError ts => simp only [ingest_def_files, run_def_triples_nil]; exact ih

theorem run_conf_triples_nil (sup : Bool) (ts : List (String × String × String)) :
    (run_conf_triples sup ts []).1 = [] := by
  induction ts with
  | nil => rfl
  | cons t ts ih =>
      have h1 : (init_callback_conf sup t.2.1 t.2.2 []).1 = [] := rfl
      simp only [run_conf_triples, h1]
      exact ih

theorem apply_def_key_snd (key value : String) (d d2 : defcon_def) :
    (apply_def_key key value d).2 = (apply_def_key key value d2).2 := by
  simp only [apply_def_key]
  split_ifs <;> rfl

theorem ini_callback_def_snd (sec key value : String) (reg : List defcon_def) :
    (ini_callback_def sec key value reg).2 =
      (apply_def_key key value (new_def sec)).2 := by
  induction reg with
  | nil => rfl
  | cons d ds ih =>
      by_cases h : d.name = sec
      · simp only [ini_callback_def, if_pos h]
        exact apply_def_key_snd key value d (new_def sec)
      · simp only [ini_callback_def, if_neg h]
        exact ih

/-! ### Claim theorems -/

/-- C1 (code bug evidence).  The claim says get_def appends a freshly
created Definition to the registry, so that two definition files both
defining FOO leave exactly one FOO entry carrying the later description.
In the code the push is botched (def_begin = def->next stores the old
head back), so get_def returns the registry unchanged, the fresh node
stays an orphan with the default fields, ingesting the two files leaves
the registry empty, and no FOO entry exists at all afterwards. -/
theorem get_def_never_links :
    (get_def ("FOO") []).2 = [] ∧
    (get_def ("FOO") []).1 = new_def ("FOO") ∧
    (ingest_def_files
        [IniResult.ok [("FOO", "description", "a")],
         IniResult.ok [("FOO", "description", "b")]] []).1 = [] ∧
    find_def ("FOO")
        (ingest_def_files
          [IniResult.ok [("FOO", "description", "a")],
           IniResult.ok [("FOO", "description", "b")]] []).1 = none :=
  ⟨rfl, rfl, rfl, rfl⟩

/-- C2 (code bug evidence).  The claim says the registry preserves
insertion order for the iteration done by the validation pass and the
renderers.  Because get_def never links the node it creates (see
get_def), the registry headed by def_begin stays empty across any
sequence of definition files and configuration triples, so the iteration
visits none of the created Definitions: the header renderer emits only
its include guard and the makefile renderer emits nothing. -/
theorem registry_iteration_empty (files : List IniResult) (sup : Bool)
    (cts : List (String × String × String)) :
    (ingest_def_files files []).1 = [] ∧
    (run_conf_triples sup cts (ingest_def_files files []).1).1 = [] ∧
    generate_c_header_lines (ingest_def_files files []).1 =
      ["#ifndef __CONFIG_H__", "#define __CONFIG_H__ 1", "#endif"] ∧
    generate_makefile_lines (ingest_def_files files []).1 = [] := by
  refine ⟨ingest_def_files_nil files, ?_, ?_, ?_⟩
  · rw [ingest_def_files_nil files]
    exact run_conf_triples_nil sup cts
  · rw [ingest_def_files_nil files]
    rfl
  · rw [ingest_def_files_nil files]
    rfl

/-- C8: a configuration key with no matching Definition (find_def misses)
produces a warning exactly when suppression is off, the callback returns
0, and the registry is returned unchanged: no Definition is created. -/
theorem undefined_conf_key_skipped (sup : Bool) (key value : String)
    (reg : List defcon_def) (h : find_def key reg = none) :
    init_callback_conf sup key value reg = (reg, !sup, false) := by
  induction reg with
  | nil => rfl
  | cons d ds ih =>
      rw [find_def] at h
      by_cases hd : d.name = key
      · rw [if_pos hd] at h
        exact absurd h (by simp)
      · rw [if_neg hd] at h
        simp [init_callback_conf, hd, ih h]

/-- C8 witness at a concrete input. -/
theorem undefined_conf_key_skipped_witness :
    init_callback_conf false "PORT" "8080" [] = ([], true, false) :=
  undefined_conf_key_skipped false "PORT" "8080" [] rfl

/-- C10: a definition file line type = string is reported with the
"unable to parse" warning, because parse_type returns VALUE_TYPE_STRING
(0), the same value the warning check tests for; every other token of
the fixed type vocabulary yields a nonzero tag and no warning. -/
theorem type_string_warning (sec : String) (reg : List defcon_def) :
    (ini_callback_def sec "type" "string" reg).2.1 = true ∧
    ∀ tok, (tok = "integer" ∨ tok = "hex_integer" ∨
        tok = "unsigned_integer" ∨ tok = "boolean") →
      (ini_callback_def sec "type" tok reg).2.1 = false := by
  constructor
  · rw [ini_callback_def_snd, apply_def_key_snd "type" "string" (new_def sec) (new_def (""))]
    decide
  · intro tok htok
    rcases htok with rfl | rfl | rfl | rfl <;>
      (rw [ini_callback_def_snd, apply_def_key_snd "type" _ (new_def sec) (new_def (""))] ;
        decide)

/-- C10 witness at a concrete input. -/
theorem type_string_warning_witness :
    (ini_callback_def ("FOO") "type" "string" []).2.1 = true ∧
    (ini_callback_def ("FOO") "type" "integer" []).2.1 = false :=
  ⟨(type_string_warning "FOO" []).1,
    (type_string_warning "FOO" []).2 "integer" (Or.inl rfl)⟩

theorem first_unresolved_required_spec (reg : List defcon_def) (d0 : defcon_def)
    (h0 : d0 ∈ reg) (hreq : d0.value_required = true) (hnv : d0.has_value = false) :
    ∃ pre d post, reg = pre ++ d :: post ∧ d.value_required = true ∧
      d.has_value = false ∧
      (∀ d2 ∈ pre, d2.has_value = true ∨ d2.value_required = false) ∧
      first_unresolved_required reg = some d := by
  induction reg with
  | nil => cases h0
  | cons d1 ds ih =>
      by_cases hskip : (d1.has_value || !d1.value_required) = true
      · have h0ds : d0 ∈ ds := by
          rcases List.mem_cons.mp h0 with rfl | h
          · rw [hreq, hnv] at hskip
            simp at hskip
          · exact h
        obtain ⟨pre, d, post, hsplit, h1, h2, h3, h4⟩ := ih h0ds
        refine ⟨d1 :: pre, d, post, by rw [List.cons_append, hsplit], h1, h2, ?_, ?_⟩
        · intro d2 hd2
          rcases List.mem_cons.mp hd2 with rfl | h
          · rcases Bool.or_eq_true_iff.mp hskip with hv | hr
            · exact Or.inl hv
            · exact Or.inr (by simpa using hr)
          · exact h3 d2 h
        · rw [first_unresolved_required, if_pos hskip]
          exact h4
      · have hd1 : d1.has_value = false ∧ d1.value_required = true := by
          simpa using hskip
        refine ⟨[], d1, ds, rfl, hd1.2, hd1.1, ?_, ?_⟩
        · intro d2 hd2
          exact absurd hd2 (List.not_mem_nil d2)
        · rw [first_unresolved_required, if_neg hskip]

/-- C3: if any Definition in the registry has value_required set and
has_value clear once configuration resolution is over, main dies (fatal
diagnostic naming the key, exit code 1) on the first such Definition in
iteration order, and the rendering branch is never reached. -/
theorem required_without_value_fatal (reg : List defcon_def) (d0 : defcon_def)
    (h0 : d0 ∈ reg) (hreq : d0.value_required = true) (hnv : d0.has_value = false) :
    ∃ pre d post, reg = pre ++ d :: post ∧ d.value_required = true ∧
      d.has_value = false ∧
      (∀ d2 ∈ pre, d2.has_value = true ∨ d2.value_required = false) ∧
      run_after_conf reg = MainOutcome.fatalRequired d.name := by
  obtain ⟨pre, d, post, hsplit, h1, h2, h3, h4⟩ :=
    first_unresolved_required_spec reg d0 h0 hreq hnv
  exact ⟨pre, d, post, hsplit, h1, h2, h3, by rw [run_after_conf, h4]⟩

/-- C3 witness: a single required definition without a value. -/
theorem required_without_value_fatal_witness :
    ∃ pre d post,
      [{ new_def ("K") with value_required := true }] = pre ++ d :: post ∧
      d.value_required = true ∧ d.has_value = false ∧
      (∀ d2 ∈ pre, d2.has_value = true ∨ d2.value_required = false) ∧
      run_after_conf [{ new_def ("K") with value_required := true }] =
        MainOutcome.fatalRequired d.name :=
  required_without_value_fatal [{ new_def ("K") with value_required := true }]
    { new_def ("K") with value_required := true } (List.mem_singleton.mpr rfl) rfl rfl

/-- A definition of integer type that already carries a resolved value,
used to exercise the configuration callback on a failed coercion. -/
def sample_int_def : defcon_def :=
  { name := "K"
    description := ""
    define := ""
    has_value := true
    value_required := false
    value :=
      { type := VALUE_TYPE_INTEGER
        string := ""
        integer := 7
        unsigned_integer := 0
        boolean := false } }

/-- C4 counterexample: the claim says a failed coercion leaves has_value
at its prior state, in particular a Definition with has_value already
true keeps it true.  The C callback passes the address of has_value as
the sscanf success flag, so the failed parse of "abc" against the
integer type overwrites the true flag with false. -/
theorem failed_coercion_clears_has_value_cex :
    sample_int_def.has_value = true ∧
    (init_callback_conf false "K" "abc" [sample_int_def]).1 =
      [{ sample_int_def with has_value := false }] :=
  ⟨rfl, rfl⟩

/-- C4 amended: when the coercion of a configuration value against the
matched Definition fails, the callback warns, returns 0, and stores the
failure flag into has_value, overwriting whatever value it had before
(the stored value itself is whatever parse_value left behind). -/
theorem failed_coercion_overwrites_has_value (sup : Bool) (key value : String)
    (pre post : List defcon_def) (d : defcon_def)
    (hpre : ∀ d2 ∈ pre, d2.name ≠ key) (hd : d.name = key)
    (hfail : (parse_value value d.value).2 = false) :
    init_callback_conf sup key value (pre ++ d :: post) =
      (pre ++ { d with value := (parse_value value d.value).1
                       has_value := false } :: post, true, false) := by
  induction pre with
  | nil =>
      simp only [List.nil_append]
      simp [init_callback_conf, hd, hfail]
  | cons p ps ih =>
      have hp : p.name ≠ key := hpre p (List.mem_cons_self p ps)
      have ih2 := ih (fun x hx => hpre x (List.mem_cons_of_mem p hx))
      simp only [List.cons_append]
      simp [init_callback_conf, hp, ih2]

/-- C4 amended witness at a concrete input. -/
theorem failed_coercion_overwrites_has_value_witness :
    init_callback_conf false "K" "abc" ([] ++ sample_int_def :: []) =
      ([] ++ { sample_int_def with
                value := (parse_value "abc" sample_int_def.value).1
                has_value := false } :: [], true, false) :=
  failed_coercion_overwrites_has_value false "K" "abc" [] [] sample_int_def
    (fun d2 h => absurd h (List.not_mem_nil d2)) rfl (by decide)

/-- A value of string type, used to exercise the round trip on the
string tag. -/
def sample_str_val : defcon_value :=
  { type := VALUE_TYPE_STRING
    string := "a"
    integer := 0
    unsigned_integer := 0
    boolean := false }

/-- C5 counterexample: the canonical text of the string value a is the
quoted form, but parsing it back stores the quoted text verbatim and
formatting adds another layer of quotes, so the string tag does not
round-trip. -/
theorem string_roundtrip_cex :
    value_to_string sample_str_val = "\"a\"" ∧
    (parse_value (value_to_string sample_str_val) sample_str_val).2 = true ∧
    value_to_string (parse_value (value_to_string sample_str_val) sample_str_val).1 ≠
      value_to_string sample_str_val := by
  decide

/-- C5 amended: on the four non-string tags, parsing the canonical
rendering of a representable value succeeds and reproduces the value, so
formatting the parse result gives back the canonical text.  The range
bounds keep the inputs inside the 64 bit intmax_t and uintmax_t of the
platform, where the C conversions are defined. -/
theorem nonstring_canonical_roundtrip :
    (∀ (v : defcon_value) (n : Int), v.type = VALUE_TYPE_INTEGER →
      -(2 ^ 63) ≤ n → n < 2 ^ 63 →
      parse_value (value_to_string { v with integer := n }) v =
        ({ v with integer := n }, true) ∧
      value_to_string (parse_value (value_to_string { v with integer := n }) v).1 =
        value_to_string { v with integer := n }) ∧
    (∀ (v : defcon_value) (n : Nat), v.type = VALUE_TYPE_HEX_INTEGER →
      n < UINTMAX_MOD →
      parse_value (value_to_string { v with unsigned_integer := n }) v =
        ({ v with unsigned_integer := n }, true) ∧
      value_to_string
          (parse_value (value_to_string { v with unsigned_integer := n }) v).1 =
        value_to_string { v with unsigned_integer := n }) ∧
    (∀ (v : defcon_value) (n : Nat), v.type = VALUE_TYPE_UNSIGNED_INTEGER →
      n < UINTMAX_MOD →
      parse_value (value_to_string { v with unsigned_integer := n }) v =
        ({ v with unsigned_integer := n }, true) ∧
      value_to_string
          (parse_value (value_to_string { v with unsigned_integer := n }) v).1 =
        value_to_string { v with unsigned_integer := n }) ∧
    (∀ (v : defcon_value) (b : Bool), v.type = VALUE_TYPE_BOOLEAN →
      parse_value (value_to_string { v with boolean := b }) v =
        ({ v with boolean := b }, true) ∧
      value_to_string (parse_value (value_to_string { v with boolean := b }) v).1 =
        value_to_string { v with boolean := b }) := by
  refine ⟨?_, ?_, ?_, ?_⟩
  · intro v n h hlo hhi
    have hfmt : value_to_string { v with integer := n } = intDecString n := by
      simp [value_to_string, h, VALUE_TYPE_STRING, VALUE_TYPE_INTEGER]
    have hparse : parse_value (intDecString n) v = ({ v with integer := n }, true) := by
      simp [parse_value, h, VALUE_TYPE_INTEGER, scanf_jd_format n]
    refine ⟨by rw [hfmt]; exact hparse, ?_⟩
    rw [hfmt, hparse]
    exact hfmt
  · intro v n h hlt
    have hfmt : value_to_string { v with unsigned_integer := n } = hexStringU n := by
      simp [value_to_string, h, VALUE_TYPE_STRING, VALUE_TYPE_INTEGER,
        VALUE_TYPE_HEX_INTEGER]
    have hparse : parse_value (hexStringU n) v =
        ({ v with unsigned_integer := n }, true) := by
      simp [parse_value, h, VALUE_TYPE_INTEGER, VALUE_TYPE_HEX_INTEGER,
        scanf_0x_jx_format n hlt]
    refine ⟨by rw [hfmt]; exact hparse, ?_⟩
    rw [hfmt, hparse]
    exact hfmt
  · intro v n h hlt
    have hfmt : value_to_string { v with unsigned_integer := n } = natDecString n := by
      simp [value_to_string, h, VALUE_TYPE_STRING, VALUE_TYPE_INTEGER,
        VALUE_TYPE_HEX_INTEGER, VALUE_TYPE_UNSIGNED_INTEGER]
    have hparse : parse_value (natDecString n) v =
        ({ v with unsigned_integer := n }, true) := by
      simp [parse_value, h, VALUE_TYPE_INTEGER, VALUE_TYPE_HEX_INTEGER,
        VALUE_TYPE_UNSIGNED_INTEGER, scanf_ju_format n hlt]
    refine ⟨by rw [hfmt]; exact hparse, ?_⟩
    rw [hfmt, hparse]
    exact hfmt
  · intro v b h
    cases b
    · have hfmt : value_to_string { v with boolean := false } = "0" := by
        simp [value_to_string, h, VALUE_TYPE_STRING, VALUE_TYPE_INTEGER,
          VALUE_TYPE_HEX_INTEGER, VALUE_TYPE_UNSIGNED_INTEGER, VALUE_TYPE_BOOLEAN]
      have hparse : parse_value "0" v = ({ v with boolean := false }, true) := by
        simp [parse_value, h, VALUE_TYPE_INTEGER, VALUE_TYPE_HEX_INTEGER,
          VALUE_TYPE_UNSIGNED_INTEGER, VALUE_TYPE_BOOLEAN,
          show parse_boolean "0" = false from by decide]
      refine ⟨by rw [hfmt]; exact hparse, ?_⟩
      rw [hfmt, hparse]
      exact hfmt
    · have hfmt : value_to_string { v with boolean := true } = "1" := by
        simp [value_to_string, h, VALUE_TYPE_STRING, VALUE_TYPE_INTEGER,
          VALUE_TYPE_HEX_INTEGER, VALUE_TYPE_UNSIGNED_INTEGER, VALUE_TYPE_BOOLEAN]
      have hparse : parse_value "1" v = ({ v with boolean := true }, true) := by
        simp [parse_value, h, VALUE_TYPE_INTEGER, VALUE_TYPE_HEX_INTEGER,
          VALUE_TYPE_UNSIGNED_INTEGER, VALUE_TYPE_BOOLEAN,
          show parse_boolean "1" = true from by decide]
      refine ⟨by rw [hfmt]; exact hparse, ?_⟩
      rw [hfmt, hparse]
      exact hfmt

/-- C5 amended witness at concrete inputs for all four tags. -/
theorem nonstring_canonical_roundtrip_witness :
    (parse_value
        (value_to_string { sample_str_val with type := VALUE_TYPE_INTEGER, integer := (-7 : Int) })
        { sample_str_val with type := VALUE_TYPE_INTEGER } =
      ({ sample_str_val with type := VALUE_TYPE_INTEGER, integer := (-7 : Int) }, true)) ∧
    (parse_value
        (value_to_string { sample_str_val with type := VALUE_TYPE_HEX_INTEGER, unsigned_integer := 26 })
        { sample_str_val with type := VALUE_TYPE_HEX_INTEGER } =
      ({ sample_str_val with type := VALUE_TYPE_HEX_INTEGER, unsigned_integer := 26 }, true)) ∧
    (parse_value
        (value_to_string { sample_str_val with type := VALUE_TYPE_UNSIGNED_INTEGER, unsigned_integer := 42 })
        { sample_str_val with type := VALUE_TYPE_UNSIGNED_INTEGER } =
      ({ sample_str_val with type := VALUE_TYPE_UNSIGNED_INTEGER, unsigned_integer := 42 }, true)) ∧
    (parse_value
        (value_to_string { sample_str_val with type := VALUE_TYPE_BOOLEAN, boolean := true })
        { sample_str_val with type := VALUE_TYPE_BOOLEAN } =
      ({ sample_str_val with type := VALUE_TYPE_BOOLEAN, boolean := true }, true)) :=
  ⟨(nonstring_canonical_roundtrip.1 { sample_str_val with type := VALUE_TYPE_INTEGER }
      (-7) rfl (by norm_num) (by norm_num)).1,
   (nonstring_canonical_roundtrip.2.1 { sample_str_val with type := VALUE_TYPE_HEX_INTEGER }
      26 rfl (by norm_num [UINTMAX_MOD])).1,
   (nonstring_canonical_roundtrip.2.2.1 { sample_str_val with type := VALUE_TYPE_UNSIGNED_INTEGER }
      42 rfl (by norm_num [UINTMAX_MOD])).1,
   (nonstring_canonical_roundtrip.2.2.2 { sample_str_val with type := VALUE_TYPE_BOOLEAN }
      true rfl).1⟩

/-- Whether the subject sequence of the decimal sscanf conversions is
nonempty: after optional whitespace and one optional sign the text must
continue with a decimal digit. -/
def scanf_dec_accepted (s : String) : Bool :=
  match (splitSign (skipSpaces s.data)).2 with
  | [] => false
  | c :: _ => isDecDigit c

theorem scanf_jd_isSome (s : String) : (scanf_jd s).isSome = scanf_dec_accepted s := by
  rcases hp : splitSign (skipSpaces s.data) with ⟨b, l⟩
  simp only [scanf_jd, scanf_dec_accepted, hp]
  cases l with
  | nil => simp [takeDecDigits]
  | cons c cs =>
      cases hc : isDecDigit c
      · simp [takeDecDigits, hc]
      · cases b <;> simp [takeDecDigits, hc]

theorem scanf_ju_isSome (s : String) : (scanf_ju s).isSome = scanf_dec_accepted s := by
  rcases hp : splitSign (skipSpaces s.data) with ⟨b, l⟩
  simp only [scanf_ju, scanf_dec_accepted, hp]
  cases l with
  | nil => simp [takeDecDigits]
  | cons c cs =>
      cases hc : isDecDigit c
      · simp [takeDecDigits, hc]
      · cases b <;> simp [takeDecDigits, hc]

/-- A value of integer type with no interesting content. -/
def sample_int_val : defcon_value :=
  { type := VALUE_TYPE_INTEGER
    string := ""
    integer := 0
    unsigned_integer := 0
    boolean := false }

/-- A value of unsigned integer type with no interesting content. -/
def sample_uint_val : defcon_value :=
  { type := VALUE_TYPE_UNSIGNED_INTEGER
    string := ""
    integer := 0
    unsigned_integer := 0
    boolean := false }

/-- C6 counterexample: the claim says the integer parse fails on text
with trailing non-numeric content and the unsigned parse fails on a
negative sign; the sscanf conversions accept a digit prefix and ignore
the tail, and the unsigned conversion accepts a minus sign with
wraparound, so both parses succeed. -/
theorem numeric_parse_trailing_cex :
    (parse_value "42abc" sample_int_val).2 = true ∧
    (parse_value "42abc" sample_int_val).1.integer = 42 ∧
    (parse_value "-5" sample_uint_val).2 = true ∧
    (parse_value "-5" sample_uint_val).1.unsigned_integer = UINTMAX_MOD - 5 := by
  decide

/-- C6 amended: for the integer and unsigned integer tags, the parse
succeeds exactly when the text, after optional leading whitespace and
one optional sign character (a minus is accepted for both tags),
continues with at least one decimal digit; any trailing text after the
digit run is ignored. -/
theorem numeric_parse_accepts_leading_digits (s : String) (v : defcon_value)
    (h : v.type = VALUE_TYPE_INTEGER ∨ v.type = VALUE_TYPE_UNSIGNED_INTEGER) :
    (parse_value s v).2 = scanf_dec_accepted s := by
  rcases h with h | h
  · rw [← scanf_jd_isSome]
    simp only [parse_value, h, VALUE_TYPE_INTEGER]
    cases hs : scanf_jd s <;> simp [hs]
  · rw [← scanf_ju_isSome]
    simp only [parse_value, h, VALUE_TYPE_INTEGER, VALUE_TYPE_HEX_INTEGER,
      VALUE_TYPE_UNSIGNED_INTEGER]
    cases hs : scanf_ju s <;> simp [hs]

/-- C6 amended witness at a concrete input. -/
theorem numeric_parse_accepts_leading_digits_witness :
    (parse_value "42abc" sample_int_val).2 = scanf_dec_accepted "42abc" :=
  numeric_parse_accepts_leading_digits "42abc" sample_int_val (Or.inl rfl)

/-- A value of boolean type with no interesting content. -/
def sample_bool_val : defcon_value :=
  { type := VALUE_TYPE_BOOLEAN
    string := ""
    integer := 0
    unsigned_integer := 0
    boolean := false }

/-- C7: the boolean coercion never fails, stores the parse_boolean
verdict, and that verdict is true exactly when the atoi value of the
text is nonzero or the text is exactly the literal true; the four texts
named by the specification behave as stated. -/
theorem boolean_parse_total (s : String) (v : defcon_value)
    (h : v.type = VALUE_TYPE_BOOLEAN) :
    (parse_value s v).2 = true ∧
    (parse_value s v).1.boolean = parse_boolean s ∧
    (parse_boolean s = true ↔ (atoi s ≠ 0 ∨ s = "true")) ∧
    parse_boolean "0" = false ∧ parse_boolean "1" = true ∧
    parse_boolean "true" = true ∧ parse_boolean "false" = false := by
  refine ⟨?_, ?_, ?_, by decide, by decide, by decide, by decide⟩
  · simp [parse_value, h, VALUE_TYPE_INTEGER, VALUE_TYPE_HEX_INTEGER,
      VALUE_TYPE_UNSIGNED_INTEGER, VALUE_TYPE_BOOLEAN]
  · simp [parse_value, h, VALUE_TYPE_INTEGER, VALUE_TYPE_HEX_INTEGER,
      VALUE_TYPE_UNSIGNED_INTEGER, VALUE_TYPE_BOOLEAN]
  · simp [parse_boolean]

/-- C7 witness at a concrete input. -/
theorem boolean_parse_total_witness :
    (parse_value "1" sample_bool_val).2 = true ∧
    (parse_value "1" sample_bool_val).1.boolean = parse_boolean "1" ∧
    (parse_boolean "1" = true ↔ (atoi "1" ≠ 0 ∨ "1" = "true")) ∧
    parse_boolean "0" = false ∧ parse_boolean "1" = true ∧
    parse_boolean "true" = true ∧ parse_boolean "false" = false :=
  boolean_parse_total "1" sample_bool_val rfl

/-- C9: failure handling is asymmetric.  A definition file whose open or
parse fails contributes a warning and ingestion continues with the
remaining files, while a configuration file whose open or parse fails
makes the configuration phase (and hence the whole run) fatal. -/
theorem def_conf_failure_asymmetry (f : IniResult) (hf : f.failed = true) :
    (∀ fs reg, ∃ regAfter wf, 1 ≤ wf ∧
        ingest_def_files (f :: fs) reg =
          ((ingest_def_files fs regAfter).1,
            wf + (ingest_def_files fs regAfter).2)) ∧
    (∀ sup reg, ∃ msg, resolve_conf sup f reg = ConfOutcome.fatal msg) ∧
    (∀ fs sup, fs ≠ [] → ∃ msg, defcon_main fs f sup = RunOutcome.fatal msg) := by
  cases f with
  | ok ts => simp [IniResult.failed] at hf
  | openError =>
      refine ⟨?_, ?_, ?_⟩
      · intro fs reg
        exact ⟨reg, 1, le_refl 1, rfl⟩
      · intro sup reg
        exact ⟨"open failure", rfl⟩
      · intro fs sup hne
        refine ⟨"open failure", ?_⟩
        cases fs with
        | nil => exact absurd rfl hne
        | cons a fs2 => simp [defcon_main, resolve_conf]
  | parseError ts =>
      refine ⟨?_, ?_, ?_⟩
      · intro fs reg
        exact ⟨(run_def_triples ts reg).1, (run_def_triples ts reg).2 + 1,
          by omega, rfl⟩
      · intro sup reg
        exact ⟨"parse error", rfl⟩
      · intro fs sup hne
        refine ⟨"parse error", ?_⟩
        cases fs with
        | nil => exact absurd rfl hne
        | cons a fs2 => simp [defcon_main, resolve_conf]

/-- C9 witness at concrete inputs. -/
theorem def_conf_failure_asymmetry_witness :
    (∃ regAfter wf, 1 ≤ wf ∧
        ingest_def_files [IniResult.openError] [] =
          ((ingest_def_files [] regAfter).1,
            wf + (ingest_def_files [] regAfter).2)) ∧
    (∃ msg, resolve_conf false IniResult.openError [] = ConfOutcome.fatal msg) ∧
    (∃ msg, defcon_main [IniResult.ok []] IniResult.openError false =
        RunOutcome.fatal msg) :=
  ⟨(def_conf_failure_asymmetry IniResult.openError (by decide)).1 [] [],
   (def_conf_failure_asymmetry IniResult.openError (by decide)).2.1 false [],
   (def_conf_failure_asymmetry IniResult.openError (by decide)).2.2
      [IniResult.ok []] false (by simp)⟩

